import Mathlib

/-!
Verification development for the OpenTelemetryExample repository: a mesh of
demo microservices (gateway, order, inventory, user, database) that emit
distributed trace spans.  The tracing core itself (propagation codec, span
lifecycle, batching exporter) is provided by the OpenTelemetry library the
services call into; those parts are modelled here from the specification.
The business handlers (jaeger inventory service, tempo order service) are
embedded directly from the repository source.
-/

namespace Propagation

/-- The lower half of the hex digit alphabet. -/
def hexCharsLow : List Char := ['0', '1', '2', '3', '4', '5', '6', '7']

/-- The upper half of the hex digit alphabet. -/
def hexCharsHigh : List Char := ['8', '9', 'a', 'b', 'c', 'd', 'e', 'f']

/-- The sixteen lowercase hex digit characters, in value order. -/
def hexChars : List Char := hexCharsLow ++ hexCharsHigh

/-- A character is a lowercase hex digit. -/
def isHexLower (c : Char) : Bool := hexChars.contains c

/-- Numeric value of a lowercase hex digit (16 for a non-hex character). -/
def hexVal (c : Char) : Nat := hexChars.indexOf c

/-- Lowercase hex digit character for a value below 16. -/
def hexDigit (n : Nat) : Char := hexChars.getD n ' '

/-- Fixed-width big-endian lowercase hex encoding of `n` in `k` digits. -/
def encodeHex : Nat → Nat → List Char
  | 0, _ => []
  | k + 1, n => hexDigit (n / 16 ^ k) :: encodeHex k (n % 16 ^ k)

/-- Decode a big-endian lowercase hex digit string. -/
def decodeHex (cs : List Char) : Nat :=
  cs.foldl (fun a c => 16 * a + hexVal c) 0

/-- Modelled from the spec: the SpanContext record `{trace_id, span_id,
trace_flags, is_remote}` of §3; the concrete class lives in the
OpenTelemetry library, not in this repository. -/
structure SpanContext where
  trace_id : Nat
  span_id : Nat
  trace_flags : Nat
  is_remote : Bool
deriving DecidableEq

/-- Modelled from the spec: a valid context has a nonzero 128-bit trace id,
a nonzero 64-bit span id and a one-byte flags field. -/
abbrev SpanContext.isValid (c : SpanContext) : Prop :=
  0 < c.trace_id ∧ c.trace_id < 16 ^ 32 ∧
  0 < c.span_id ∧ c.span_id < 16 ^ 16 ∧
  c.trace_flags < 16 ^ 2

/-- The carrier: an ordered mapping of header names to values. -/
abbrev Carrier := List (String × String)

/-- Name of the trace header written by `inject`. -/
def headerName : String := "traceparent"

/-- Modelled from the spec: the traceparent header value
`<2-hex-version>-<32-hex-traceid>-<16-hex-spanid>-<2-hex-flags>` with the
fixed version byte 00. -/
def headerChars (t s f : Nat) : List Char :=
  encodeHex 2 0 ++ '-' :: (encodeHex 32 t ++ '-' :: (encodeHex 16 s ++ '-' :: encodeHex 2 f))

/-- Modelled from the spec: `inject` writes the single trace header entry
into the carrier; the concrete propagator is the OpenTelemetry
`TraceContextTextMapPropagator` referenced by `shared/tracing.py`. -/
def inject (ctx : SpanContext) (carrier : Carrier) : Carrier :=
  carrier ++ [(headerName, ⟨headerChars ctx.trace_id ctx.span_id ctx.trace_flags⟩)]

/-- Read `k` lowercase hex digits from the front of the input, returning
their value and the rest of the input; fails if fewer than `k` hex digits
are present. -/
def readHex (k : Nat) (cs : List Char) : Option (Nat × List Char) :=
  if (cs.take k).length = k ∧ (cs.take k).all isHexLower then
    some (decodeHex (cs.take k), cs.drop k)
  else none

/-- Expect a hyphen separator. -/
def readDash : List Char → Option (List Char)
  | '-' :: rest => some rest
  | _ => none

/-- Modelled from the spec: parse a traceparent header value.  Returns
`none` on any malformed input or unrecognized version; a successfully
extracted context is marked remote (§3: `is_remote` is true when the
context was reconstructed from an incoming carrier). -/
def extractChars (cs : List Char) : Option SpanContext :=
  (readHex 2 cs).bind fun p1 =>
  (readDash p1.2).bind fun cs2 =>
  (readHex 32 cs2).bind fun p2 =>
  (readDash p2.2).bind fun cs3 =>
  (readHex 16 cs3).bind fun p3 =>
  (readDash p3.2).bind fun cs4 =>
  (readHex 2 cs4).bind fun p4 =>
  if p1.1 = 0 ∧ p4.2 = [] ∧ p2.1 ≠ 0 ∧ p3.1 ≠ 0 then
    some ⟨p2.1, p3.1, p4.1, true⟩
  else none

/-- Modelled from the spec: `extract` looks the trace header up in the
carrier and parses it, degrading to `none` when the header is absent or
malformed. -/
def extract (carrier : Carrier) : Option SpanContext :=
  match carrier.lookup headerName with
  | some v => extractChars v.data
  | none => none

/-- A string is a well-formed trace header exactly when it is the header
image of some valid field values. -/
def validHeaderString (v : String) : Prop :=
  ∃ t s f, 0 < t ∧ t < 16 ^ 32 ∧ 0 < s ∧ s < 16 ^ 16 ∧ f < 16 ^ 2 ∧
    v.data = headerChars t s f

theorem hexVal_hexDigit {d : Nat} (h : d < 16) : hexVal (hexDigit d) = d := by
  revert h; revert d; decide

theorem isHexLower_hexDigit {d : Nat} (h : d < 16) : isHexLower (hexDigit d) = true := by
  revert h; revert d; decide

theorem mem_hexChars_of_isHexLower {c : Char} (h : isHexLower c = true) : c ∈ hexChars := by
  simpa [isHexLower] using h

theorem hexVal_lt {c : Char} (h : isHexLower c = true) : hexVal c < 16 := by
  have hm := mem_hexChars_of_isHexLower h
  have hall : ∀ x ∈ hexChars, hexVal x < 16 := by decide
  exact hall c hm

theorem hexDigit_hexVal {c : Char} (h : isHexLower c = true) : hexDigit (hexVal c) = c := by
  have hm := mem_hexChars_of_isHexLower h
  have hall : ∀ x ∈ hexChars, hexDigit (hexVal x) = x := by decide
  exact hall c hm

theorem encodeHex_length (k n : Nat) : (encodeHex k n).length = k := by
  induction k generalizing n with
  | zero => simp [encodeHex]
  | succ k ih => simp [encodeHex, ih]

theorem encodeHex_all_hex (k : Nat) : ∀ n, n < 16 ^ k → (encodeHex k n).all isHexLower = true := by
  induction k with
  | zero => intro n _; simp [encodeHex]
  | succ k ih =>
    intro n hn
    have hdiv : n / 16 ^ k < 16 := by
      have h16 : (0:Nat) < 16 ^ k := Nat.pos_pow_of_pos _ (by norm_num)
      have : n < 16 * 16 ^ k := by
        calc n < 16 ^ (k + 1) := hn
        _ = 16 * 16 ^ k := by ring
      exact Nat.div_lt_of_lt_mul (by omega)
    have hmod : n % 16 ^ k < 16 ^ k :=
      Nat.mod_lt _ (Nat.pos_pow_of_pos _ (by norm_num))
    simp [encodeHex, isHexLower_hexDigit hdiv, ih _ hmod]

theorem foldl_hex_lt (cs : List Char) : ∀ a : Nat, cs.all isHexLower = true →
    cs.foldl (fun a c => 16 * a + hexVal c) a < (a + 1) * 16 ^ cs.length := by
  induction cs with
  | nil => intro a _; simp
  | cons c cs ih =>
    intro a hall
    simp only [List.all_cons, Bool.and_eq_true] at hall
    have hc : hexVal c < 16 := hexVal_lt hall.1
    have h1 := ih (16 * a + hexVal c) hall.2
    simp only [List.foldl_cons, List.length_cons]
    calc (cs.foldl (fun a c => 16 * a + hexVal c) (16 * a + hexVal c))
        < (16 * a + hexVal c + 1) * 16 ^ cs.length := h1
      _ ≤ ((a + 1) * 16) * 16 ^ cs.length := by
          have : 16 * a + hexVal c + 1 ≤ (a + 1) * 16 := by omega
          exact Nat.mul_le_mul_right _ this
      _ = (a + 1) * 16 ^ (cs.length + 1) := by ring

theorem decodeHex_lt (cs : List Char) (h : cs.all isHexLower = true) :
    decodeHex cs < 16 ^ cs.length := by
  have h1 := foldl_hex_lt cs 0 h
  rw [Nat.zero_add, one_mul] at h1
  exact h1

theorem foldl_hex_shift (cs : List Char) : ∀ a : Nat,
    cs.foldl (fun a c => 16 * a + hexVal c) a = a * 16 ^ cs.length + decodeHex cs := by
  induction cs with
  | nil => intro a; simp [decodeHex]
  | cons c cs ih =>
    intro a
    simp only [List.foldl_cons, List.length_cons, decodeHex]
    rw [ih (16 * a + hexVal c), ih (16 * 0 + hexVal c)]
    ring

theorem decodeHex_cons (c : Char) (cs : List Char) :
    decodeHex (c :: cs) = hexVal c * 16 ^ cs.length + decodeHex cs := by
  simp only [decodeHex, List.foldl_cons]
  rw [foldl_hex_shift]
  simp only [decodeHex]
  ring

theorem foldl_encodeHex (k : Nat) : ∀ n a : Nat, n < 16 ^ k →
    (encodeHex k n).foldl (fun a c => 16 * a + hexVal c) a = a * 16 ^ k + n := by
  induction k with
  | zero => intro n a hn; interval_cases n; simp [encodeHex]
  | succ k ih =>
    intro n a hn
    have hpos : (0:Nat) < 16 ^ k := Nat.pos_pow_of_pos _ (by norm_num)
    have hdiv : n / 16 ^ k < 16 := by
      have : n < 16 * 16 ^ k := by
        calc n < 16 ^ (k + 1) := hn
        _ = 16 * 16 ^ k := by ring
      exact Nat.div_lt_of_lt_mul (by omega)
    have hmod : n % 16 ^ k < 16 ^ k := Nat.mod_lt _ hpos
    simp only [encodeHex, List.foldl_cons]
    rw [ih (n % 16 ^ k) _ hmod, hexVal_hexDigit hdiv]
    have hdm := Nat.div_add_mod n (16 ^ k)
    calc (16 * a + n / 16 ^ k) * 16 ^ k + n % 16 ^ k
        = a * (16 ^ k * 16) + (16 ^ k * (n / 16 ^ k) + n % 16 ^ k) := by ring
      _ = a * 16 ^ (k + 1) + n := by rw [hdm, pow_succ]

theorem decodeHex_encodeHex {k n : Nat} (h : n < 16 ^ k) :
    decodeHex (encodeHex k n) = n := by
  have := foldl_encodeHex k n 0 h
  simpa [decodeHex] using this

theorem encodeHex_decodeHex (cs : List Char) (h : cs.all isHexLower = true) :
    encodeHex cs.length (decodeHex cs) = cs := by
  induction cs with
  | nil => simp [encodeHex]
  | cons c cs ih =>
    simp only [List.all_cons, Bool.and_eq_true] at h
    have hc : hexVal c < 16 := hexVal_lt h.1
    have hlt : decodeHex cs < 16 ^ cs.length := decodeHex_lt cs h.2
    have hpos : (0:Nat) < 16 ^ cs.length := Nat.pos_pow_of_pos _ (by norm_num)
    rw [decodeHex_cons]
    simp only [List.length_cons, encodeHex]
    have hdiv : (hexVal c * 16 ^ cs.length + decodeHex cs) / 16 ^ cs.length = hexVal c := by
      rw [Nat.add_comm, Nat.add_mul_div_right _ _ hpos, Nat.div_eq_of_lt hlt]
      omega
    have hmod : (hexVal c * 16 ^ cs.length + decodeHex cs) % 16 ^ cs.length = decodeHex cs := by
      rw [Nat.add_comm, Nat.add_mul_mod_self_right, Nat.mod_eq_of_lt hlt]
    rw [hdiv, hmod, hexDigit_hexVal h.1, ih h.2]

theorem readHex_encodeHex {k n : Nat} (rest : List Char) (h : n < 16 ^ k) :
    readHex k (encodeHex k n ++ rest) = some (n, rest) := by
  unfold readHex
  rw [List.take_left' (encodeHex_length k n), List.drop_left' (encodeHex_length k n)]
  simp [encodeHex_length, encodeHex_all_hex k n h, decodeHex_encodeHex h]

theorem readHex_eq_some {k : Nat} {cs rest : List Char} {n : Nat}
    (h : readHex k cs = some (n, rest)) :
    cs = encodeHex k n ++ rest ∧ n < 16 ^ k := by
  unfold readHex at h
  split at h
  · rename_i hcond
    obtain ⟨hlen, hall⟩ := hcond
    simp only [Option.some.injEq, Prod.mk.injEq] at h
    obtain ⟨hn, hrest⟩ := h
    have he : encodeHex k (decodeHex (cs.take k)) = cs.take k := by
      nth_rewrite 1 [← hlen]
      exact encodeHex_decodeHex _ hall
    constructor
    · rw [← hn, ← hrest, he]
      exact (List.take_append_drop k cs).symm
    · rw [← hn]
      have hd := decodeHex_lt _ hall
      rwa [hlen] at hd
  · exact absurd h (by simp)

theorem readDash_eq_some {cs rest : List Char} (h : readDash cs = some rest) :
    cs = '-' :: rest := by
  unfold readDash at h
  split at h
  · simp only [Option.some.injEq] at h
    rw [h]
  · exact absurd h (by simp)

theorem headerChars_length (t s f : Nat) : (headerChars t s f).length = 55 := by
  simp [headerChars, encodeHex_length]

theorem extractChars_headerChars {t s f : Nat}
    (ht0 : 0 < t) (ht : t < 16 ^ 32) (hs0 : 0 < s) (hs : s < 16 ^ 16) (hf : f < 16 ^ 2) :
    extractChars (headerChars t s f) = some ⟨t, s, f, true⟩ := by
  unfold extractChars headerChars
  rw [readHex_encodeHex _ (by norm_num : (0:Nat) < 16 ^ 2)]
  simp only [Option.some_bind, readDash]
  rw [readHex_encodeHex _ ht]
  simp only [Option.some_bind, readDash]
  rw [readHex_encodeHex _ hs]
  simp only [Option.some_bind, readDash]
  rw [show encodeHex 2 f = encodeHex 2 f ++ [] from (List.append_nil _).symm,
    readHex_encodeHex _ hf]
  simp [ht0.ne', hs0.ne']

theorem extractChars_eq_some {cs : List Char} {ctx : SpanContext}
    (h : extractChars cs = some ctx) :
    ∃ t s f, 0 < t ∧ t < 16 ^ 32 ∧ 0 < s ∧ s < 16 ^ 16 ∧ f < 16 ^ 2 ∧
      cs = headerChars t s f ∧ ctx = ⟨t, s, f, true⟩ := by
  unfold extractChars at h
  cases h1 : readHex 2 cs with
  | none => rw [h1] at h; exact absurd h (by simp)
  | some p1 =>
  obtain ⟨v1, cs1⟩ := p1
  rw [h1] at h; simp only [Option.some_bind] at h
  cases h2 : readDash cs1 with
  | none => rw [h2] at h; exact absurd h (by simp)
  | some cs2 =>
  rw [h2] at h; simp only [Option.some_bind] at h
  cases h3 : readHex 32 cs2 with
  | none => rw [h3] at h; exact absurd h (by simp)
  | some p2 =>
  obtain ⟨v2, rest2⟩ := p2
  rw [h3] at h; simp only [Option.some_bind] at h
  cases h4 : readDash rest2 with
  | none => rw [h4] at h; exact absurd h (by simp)
  | some cs3 =>
  rw [h4] at h; simp only [Option.some_bind] at h
  cases h5 : readHex 16 cs3 with
  | none => rw [h5] at h; exact absurd h (by simp)
  | some p3 =>
  obtain ⟨v3, rest3⟩ := p3
  rw [h5] at h; simp only [Option.some_bind] at h
  cases h6 : readDash rest3 with
  | none => rw [h6] at h; exact absurd h (by simp)
  | some cs4 =>
  rw [h6] at h; simp only [Option.some_bind] at h
  cases h7 : readHex 2 cs4 with
  | none => rw [h7] at h; exact absurd h (by simp)
  | some p4 =>
  obtain ⟨v4, rest4⟩ := p4
  rw [h7] at h; simp only [Option.some_bind] at h
  split at h
  · rename_i hcond
    obtain ⟨hver, hend, ht0, hs0⟩ := hcond
    simp only [Option.some.injEq] at h
    obtain ⟨e1, hlt1⟩ := readHex_eq_some h1
    obtain ⟨e3, hlt3⟩ := readHex_eq_some h3
    obtain ⟨e5, hlt5⟩ := readHex_eq_some h5
    obtain ⟨e7, hlt7⟩ := readHex_eq_some h7
    have e2 := readDash_eq_some h2
    have e4 := readDash_eq_some h4
    have e6 := readDash_eq_some h6
    refine ⟨v2, v3, v4, Nat.pos_of_ne_zero ht0, hlt3, Nat.pos_of_ne_zero hs0, hlt5,
      hlt7, ?_, h.symm⟩
    rw [e1, e2, e3, e4, e5, e6, e7, hend, hver]
    simp [headerChars]
  · exact absurd h (by simp)

/-- `extract` succeeds only on carriers whose trace header entry is a
well-formed header string. -/
theorem extract_isSome_validHeader {carrier : Carrier}
    (h : extract carrier ≠ none) :
    ∃ v, carrier.lookup headerName = some v ∧ validHeaderString v := by
  unfold extract at h
  cases hl : carrier.lookup headerName with
  | none => rw [hl] at h; exact absurd rfl h
  | some v =>
    rw [hl] at h
    have h' : extractChars v.data ≠ none := h
    cases hx : extractChars v.data with
    | none => exact absurd hx h'
    | some ctx =>
      obtain ⟨t, s, f, ht0, ht, hs0, hs, hf, hv, _⟩ := extractChars_eq_some hx
      exact ⟨v, rfl, t, s, f, ht0, ht, hs0, hs, hf, hv⟩

end Propagation

namespace ActiveSpan

/-- Modelled from the spec: the identity-and-linkage part of a span (§3);
the concrete class is the OpenTelemetry SDK span used by the services
through `tracer.start_as_current_span`. -/
structure SpanData where
  trace_id : Nat
  span_id : Nat
  parent_span_id : Option Nat
  name : String
deriving DecidableEq

/-- The active-span context of one logical execution context: a stack whose
head is the currently active span. -/
abbrev Ctx := List SpanData

/-- Modelled from the spec: `current_span()` returns the active span, or
none when no span is active (§4.3). -/
def current_span (ctx : Ctx) : Option SpanData := ctx.head?

/-- Modelled from the spec: starting a span with no explicit parent parents
it to `current_span()` and reuses its trace id; with no active span it
becomes a root of a fresh trace (§4.3). -/
def startSpan (ctx : Ctx) (nm : String) (freshTrace freshSpan : Nat) : SpanData :=
  match current_span ctx with
  | some parent => ⟨parent.trace_id, freshSpan, some parent.span_id, nm⟩
  | none => ⟨freshTrace, freshSpan, none, nm⟩

/-- Modelled from the spec: a block-structured program whose only effects on
the active-span context come from `with_active_span` scopes; `fail` is a
propagated failure exiting every enclosing scope (§4.3). -/
inductive SOp where
  | act : SOp
  | fail : SOp
  | withSpan : SpanData → SOp → SOp
  | seq : SOp → SOp → SOp

/-- Modelled from the spec: run a scoped program on the active-span stack.
Entering a `with_active_span` scope saves the current context and installs
the span; every exit path — normal or failing — restores the saved
context.  The boolean records whether execution completed without failure. -/
def run : SOp → Ctx → Ctx × Bool
  | .act, ctx => (ctx, true)
  | .fail, ctx => (ctx, false)
  | .withSpan s body, ctx =>
    let saved := ctx
    let r := run body (s :: ctx)
    (saved, r.2)
  | .seq a b, ctx =>
    let ra := run a ctx
    if ra.2 then run b ra.1 else (ra.1, false)

end ActiveSpan

namespace Exporter

/-- Modelled from the spec: the timing part of a span needed for the end()
lifecycle (§4.2); `end_time` is open while the span is active. -/
structure RSpan where
  name : String
  start_time : Nat
  end_time : Option Nat
deriving DecidableEq

/-- Modelled from the spec: `end()` is idempotent-guarded — the first call
seals the span with the given end time, a second call is a no-op (§4.2). -/
def endSpan (t : Nat) (s : RSpan) : RSpan :=
  if s.end_time.isSome then s else { s with end_time := some t }

/-- Modelled from the spec: the batching exporter state machine
STARTED → SHUTTING_DOWN → STOPPED (§4.5). -/
inductive XStatus where
  | started
  | shuttingDown
  | stopped
deriving DecidableEq

/-- Modelled from the spec: one batching-exporter instance — its lifecycle
status, the bounded in-memory queue, the dropped-span counter, and the
batches handed to the transport so far (§4.5). -/
structure Expo where
  status : XStatus
  queue : List RSpan
  dropped : Nat
  sent : List (List RSpan)
deriving DecidableEq

/-- Modelled from the spec: `on_span_end` appends to the queue when below
capacity; when the queue is full the new span is dropped and the
dropped-span counter increments (§4.5). -/
def onSpanEnd (cap : Nat) (s : RSpan) (e : Expo) : Expo :=
  if e.status = XStatus.started then
    if e.queue.length < cap then { e with queue := e.queue ++ [s] }
    else { e with dropped := e.dropped + 1 }
  else e

/-- Modelled from the spec: `force_flush` drains the queue into one batch
and hands it to the abstract transport; on transport failure the batch is
discarded (§4.5). -/
def forceFlush (send : List RSpan → Bool) (e : Expo) : Expo :=
  if e.queue.isEmpty then e
  else { e with
    queue := [],
    sent := if send e.queue then e.sent ++ [e.queue] else e.sent }

/-- Modelled from the spec: `shutdown` transitions to SHUTTING_DOWN,
performs one final `force_flush`, then transitions to STOPPED (§4.5). -/
def shutdown (send : List RSpan → Bool) (e : Expo) : Expo :=
  let e1 := { e with status := XStatus.shuttingDown }
  let e2 := forceFlush send e1
  { e2 with status := XStatus.stopped }

/-- Modelled from the spec: one background flush-loop cycle; it only runs
while the exporter is STARTED (§4.5). -/
def timerTick (send : List RSpan → Bool) (e : Expo) : Expo :=
  if e.status = XStatus.started then forceFlush send e else e

end Exporter

namespace JaegerInventory

/-- One inventory record of the jaeger inventory service
(`src/python/jaeger/inventory-service/main.py`, `inventory`). -/
structure JProduct where
  name : String
  quantity : Int
deriving DecidableEq

/-- The inventory dict, as an association list keyed by product id; lookup
and update act on the first matching key, matching dict semantics. -/
abbrev JInv := List (Int × JProduct)

def jLookup : JInv → Int → Option JProduct
  | [], _ => none
  | (k, p) :: rest, pid => if k = pid then some p else jLookup rest pid

/-- `inventory[product_id]["quantity"] -= quantity`: subtract `q` from the
quantity of the entry for `pid`. -/
def jUpdate : JInv → Int → Int → JInv
  | [], _, _ => []
  | (k, p) :: rest, pid, q =>
    if k = pid then (k, { p with quantity := p.quantity - q }) :: rest
    else (k, p) :: jUpdate rest pid q

def laptopName : String := "Laptop"

def mouseName : String := "Mouse"

def keyboardName : String := "Keyboard"

/-- The initial simulated inventory of the jaeger inventory service. -/
def initialInventory : JInv :=
  [(1, ⟨laptopName, 50⟩), (2, ⟨mouseName, 200⟩), (3, ⟨keyboardName, 150⟩)]

/-- Response of `POST /inventory/reserve`: either the reserved response (with
reserved and remaining quantities) or the `"failed"` response. -/
inductive JReserveResult where
  | reserved (reserved_quantity remaining_quantity : Int)
  | failed
deriving DecidableEq

/-- `reserve_inventory` of the jaeger inventory service: if the product
exists and its current quantity covers the request, decrement it and
answer `"reserved"`; otherwise fall through to the `"failed"` response. -/
def reserve_inventory (inv : JInv) (pid q : Int) : JInv × JReserveResult :=
  match jLookup inv pid with
  | some p =>
    if q ≤ p.quantity then
      (jUpdate inv pid q, JReserveResult.reserved q (p.quantity - q))
    else (inv, JReserveResult.failed)
  | none => (inv, JReserveResult.failed)

/-- Every stored quantity is non-negative. -/
abbrev jAllNonneg (inv : JInv) : Prop := ∀ e ∈ inv, 0 ≤ e.2.quantity

/-- Run a sequence of reserve requests, threading the inventory through. -/
def jReserveSeq (inv : JInv) (reqs : List (Int × Int)) : JInv :=
  reqs.foldl (fun i r => (reserve_inventory i r.1 r.2).1) inv

/-- Response of `POST /inventory/check` (latency field omitted: the model
abstracts from wall-clock time). -/
structure JCheckResponse where
  product_id : Int
  requested_quantity : Int
  available_quantity : Int
  available : Bool
deriving DecidableEq

/-- `check_inventory` of the jaeger inventory service: read
`inventory.get(product_id, {}).get("quantity", 0)` and compare it against
the requested quantity; the handler only reads the inventory dict. -/
def check_inventory (inv : JInv) (pid q : Int) : JInv × JCheckResponse :=
  let availQ : Int :=
    match jLookup inv pid with
    | some p => p.quantity
    | none => 0
  (inv, ⟨pid, q, availQ, decide (q ≤ availQ)⟩)

theorem jUpdate_nonneg {inv : JInv} {pid q : Int} {p : JProduct}
    (hall : jAllNonneg inv) (hl : jLookup inv pid = some p) (hq : q ≤ p.quantity) :
    jAllNonneg (jUpdate inv pid q) := by
  induction inv with
  | nil => simp [jUpdate, jAllNonneg]
  | cons e rest ih =>
    obtain ⟨k, pr⟩ := e
    by_cases hk : k = pid
    · subst hk
      simp [jLookup] at hl
      subst hl
      intro x hx
      simp only [jUpdate, if_pos, List.mem_cons] at hx
      rcases hx with hx | hx
      · subst hx; simp; omega
      · exact hall x (List.mem_cons_of_mem _ hx)
    · simp only [jLookup, if_neg hk] at hl
      have hall' : jAllNonneg rest := fun x hx => hall x (List.mem_cons_of_mem _ hx)
      have hrec := ih hall' hl
      intro x hx
      simp only [jUpdate, if_neg hk, List.mem_cons] at hx
      rcases hx with hx | hx
      · subst hx; exact hall _ (List.mem_cons_self _ _)
      · exact hrec x hx

theorem reserve_preserves_nonneg {inv : JInv} (pid q : Int) (hall : jAllNonneg inv) :
    jAllNonneg (reserve_inventory inv pid q).1 := by
  unfold reserve_inventory
  cases hl : jLookup inv pid with
  | none => exact hall
  | some p =>
    by_cases hq : q ≤ p.quantity
    · simp only [if_pos hq]
      exact jUpdate_nonneg hall hl hq
    · simpa only [if_neg hq] using hall

end JaegerInventory

namespace TempoOrder

/-- An HTTPException raised by the tempo order service handler. -/
structure HErr where
  status_code : Nat
  detail : String
deriving DecidableEq

/-- Outcome of the outbound `GET /inventory/{product_id}` call: an HTTP
response (status code and the `quantity` field of its JSON body, defaulting
to 0) or a connection-level `httpx.RequestError`. -/
inductive TGetResp where
  | status (code : Nat) (quantity : Int)
  | connError
deriving DecidableEq

/-- Outcome of the outbound `POST /inventory/{product_id}/reserve` call. -/
inductive TPostResp where
  | status (code : Nat)
  | connError
deriving DecidableEq

/-- A downstream inventory-service call issued by the handler, in order. -/
inductive TCall where
  | getInventory (product_id : String)
  | reserveInventory (product_id : String) (quantity : Int)
deriving DecidableEq

/-- An order record written to `orders_db` (timestamp omitted: the model
abstracts from wall-clock time). -/
structure TOrder where
  order_id : String
  product_id : String
  quantity : Int
  order_status : String
deriving DecidableEq

/-- The in-memory `orders_db`, keyed by order id. -/
abbrev OrdersDb := List (String × TOrder)

def msgQtyPositive : String := "Quantity must be positive"

def msgProductNotFound : String := "Product not found"

def msgInsufficientPre : String := "Insufficient inventory. Available: "

def msgInvUnavailable : String := "Inventory service unavailable"

def msgReserveFailed : String := "Failed to reserve inventory"

def confirmedStatus : String := "confirmed"

/-- `create_order` of the tempo order service
(`src/python/tempo/services/order-service/main.py`): validate the quantity,
check inventory over HTTP, reserve inventory over HTTP, then persist the
order to `orders_db`.  The two oracles give the outcomes of the two
outbound calls; the result carries the HTTP outcome, the resulting
`orders_db`, and the ordered list of downstream calls issued. -/
def create_order (g : TGetResp) (r : TPostResp) (oid : String) (db : OrdersDb)
    (pid : String) (qty : Int) : Except HErr TOrder × OrdersDb × List TCall :=
  if qty ≤ 0 then (Except.error ⟨400, msgQtyPositive⟩, db, [])
  else
    match g with
    | TGetResp.connError =>
      (Except.error ⟨503, msgInvUnavailable⟩, db, [TCall.getInventory pid])
    | TGetResp.status code avail =>
      if code = 404 then
        (Except.error ⟨404, msgProductNotFound⟩, db, [TCall.getInventory pid])
      else if avail < qty then
        (Except.error ⟨400, msgInsufficientPre ++ toString avail⟩, db,
          [TCall.getInventory pid])
      else
        match r with
        | TPostResp.connError =>
          (Except.error ⟨503, msgInvUnavailable⟩, db,
            [TCall.getInventory pid, TCall.reserveInventory pid qty])
        | TPostResp.status rcode =>
          if rcode ≠ 200 then
            (Except.error ⟨rcode, msgReserveFailed⟩, db,
              [TCall.getInventory pid, TCall.reserveInventory pid qty])
          else
            let order : TOrder := ⟨oid, pid, qty, confirmedStatus⟩
            (Except.ok order, db ++ [(oid, order)],
              [TCall.getInventory pid, TCall.reserveInventory pid qty])

end TempoOrder

namespace JaegerInventory

theorem jReserveSeq_nonneg (reqs : List (Int × Int)) : ∀ inv : JInv,
    jAllNonneg inv → jAllNonneg (jReserveSeq inv reqs) := by
  induction reqs with
  | nil => intro inv hall; exact hall
  | cons r reqs ih =>
    intro inv hall
    have hstep := reserve_preserves_nonneg r.1 r.2 hall
    exact ih _ hstep

end JaegerInventory

namespace Propagation

/-- C1 (counterexample): the round-trip law fails as literally stated.  The
valid, locally created context with `is_remote = false` is not returned
unchanged by `extract ∘ inject`: extraction marks the reconstructed
context as remote. -/
theorem roundtrip_claim_counterexample :
    SpanContext.isValid ⟨1, 1, 1, false⟩ ∧
    extract (inject ⟨1, 1, 1, false⟩ []) ≠ some ⟨1, 1, 1, false⟩ := by
  decide

/-- C1 (amended): for every valid SpanContext `ctx`, extracting from the
carrier produced by injecting `ctx` into an empty carrier yields the
context that agrees with `ctx` on trace id, span id and trace flags and
has `is_remote = true`; so `extract (inject ctx {}) = ctx` holds exactly
when `ctx.is_remote` is true. -/
theorem extract_inject_roundtrip (ctx : SpanContext) (h : ctx.isValid) :
    extract (inject ctx []) =
      some ⟨ctx.trace_id, ctx.span_id, ctx.trace_flags, true⟩ := by
  obtain ⟨h1, h2, h3, h4, h5⟩ := h
  have hx := extractChars_headerChars h1 h2 h3 h4 h5
  simp [extract, inject, List.lookup]
  exact hx

/-- C1 (witness): the amended round trip at a concrete valid remote
context, where it gives back the context itself. -/
theorem extract_inject_roundtrip_witness :
    SpanContext.isValid ⟨2, 3, 1, true⟩ ∧
    extract (inject ⟨2, 3, 1, true⟩ []) = some ⟨2, 3, 1, true⟩ :=
  ⟨by decide, extract_inject_roundtrip ⟨2, 3, 1, true⟩ (by decide)⟩

/-- C2: for every carrier whose trace header is absent or whose trace
header value is not a well-formed header string (malformed, or carrying a
version other than the fixed recognized one — such strings are exactly the
non-images of `headerChars`), `extract` returns `none`.  `extract` is a
total function, so no input makes it raise. -/
theorem extract_malformed_none (carrier : Carrier)
    (h : ∀ v, carrier.lookup headerName = some v → ¬ validHeaderString v) :
    extract carrier = none := by
  by_contra hne
  obtain ⟨v, hl, hv⟩ := extract_isSome_validHeader hne
  exact h v hl hv

def badHeader : String := "not-a-traceparent"

/-- C2 (witness): a carrier holding a malformed trace header value is
extracted to `none`. -/
theorem extract_malformed_none_witness :
    (∀ v, ([(headerName, badHeader)] : Carrier).lookup headerName = some v →
      ¬ validHeaderString v) ∧
    extract [(headerName, badHeader)] = none := by
  have hh : ∀ v, ([(headerName, badHeader)] : Carrier).lookup headerName = some v →
      ¬ validHeaderString v := by
    intro v hv hval
    simp [List.lookup] at hv
    obtain ⟨t, s, f, _, _, _, _, _, hdata⟩ := hval
    rw [← hv] at hdata
    have hlen := congrArg List.length hdata
    rw [headerChars_length] at hlen
    exact absurd hlen (by decide)
  exact ⟨hh, extract_malformed_none _ hh⟩

end Propagation

namespace ActiveSpan

/-- C3: a span started with no explicit parent while span A is active is
parented to A and stays in A's trace: its `parent_span_id` is A's
`span_id` and its `trace_id` is A's `trace_id`, whatever fresh ids the
generator supplies. -/
theorem startSpan_parent_linkage (A : SpanData) (stack : Ctx) (nm : String)
    (ft fs : Nat) :
    (startSpan (A :: stack) nm ft fs).parent_span_id = some A.span_id ∧
    (startSpan (A :: stack) nm ft fs).trace_id = A.trace_id := by
  simp [startSpan, current_span]

/-- C4: for every scoped program — arbitrarily nested `with_active_span`
scopes with normal and failing exits — running it returns the active-span
context to exactly what it was before, so `current_span()` afterwards
equals whatever was active before. -/
theorem run_restores_context (p : SOp) (ctx : Ctx) :
    (run p ctx).1 = ctx ∧ current_span (run p ctx).1 = current_span ctx := by
  have h : ∀ q : SOp, ∀ c : Ctx, (run q c).1 = c := by
    intro q
    induction q with
    | act => intro c; rfl
    | fail => intro c; rfl
    | withSpan s body ih => intro c; rfl
    | seq a b iha ihb =>
      intro c
      simp only [run]
      by_cases hra : (run a c).2 = true
      · rw [if_pos hra, ihb, iha]
      · rw [if_neg hra]
        exact iha c
  exact ⟨h p ctx, by rw [h p ctx]⟩

end ActiveSpan

namespace Exporter

/-- C5: enqueuing a span through `on_span_end` onto a queue already holding
`cap` spans leaves the queue unchanged and increments the dropped-span
counter by one; in general `on_span_end` never decreases the dropped
counter and never grows the queue past the capacity. -/
theorem onSpanEnd_bounded (cap : Nat) (s : RSpan) (e : Expo)
    (hst : e.status = XStatus.started) (hfull : e.queue.length = cap) :
    (onSpanEnd cap s e).queue = e.queue ∧
    (onSpanEnd cap s e).dropped = e.dropped + 1 ∧
    (∀ s' : RSpan, ∀ e' : Expo, e'.dropped ≤ (onSpanEnd cap s' e').dropped) ∧
    (∀ s' : RSpan, ∀ e' : Expo, e'.queue.length ≤ cap →
      (onSpanEnd cap s' e').queue.length ≤ cap) := by
  have hnl : ¬ e.queue.length < cap := by omega
  refine ⟨by simp [onSpanEnd, hst, hnl], by simp [onSpanEnd, hst, hnl], ?_, ?_⟩
  · intro s' e'
    unfold onSpanEnd
    split
    · split <;> simp
    · exact Nat.le_refl _
  · intro s' e' hle
    unfold onSpanEnd
    split
    · split
      · rename_i hlt
        simp only [List.length_append, List.length_cons, List.length_nil]
        omega
      · simpa using hle
    · exact hle

def demoName : String := "demo"

/-- A sealed demo span. -/
def demoSpan : RSpan := ⟨demoName, 0, none⟩

/-- An exporter whose queue holds two spans. -/
def demoExpo : Expo := ⟨XStatus.started, [demoSpan, demoSpan], 0, []⟩

/-- C5 (witness): dropping on a full queue of capacity 2, at a concrete
exporter state. -/
theorem onSpanEnd_bounded_witness :
    (demoExpo.status = XStatus.started ∧ demoExpo.queue.length = 2) ∧
    ((onSpanEnd 2 demoSpan demoExpo).queue = demoExpo.queue ∧
    (onSpanEnd 2 demoSpan demoExpo).dropped = demoExpo.dropped + 1 ∧
    (∀ s' : RSpan, ∀ e' : Expo, e'.dropped ≤ (onSpanEnd 2 s' e').dropped) ∧
    (∀ s' : RSpan, ∀ e' : Expo, e'.queue.length ≤ 2 →
      (onSpanEnd 2 s' e').queue.length ≤ 2)) :=
  ⟨⟨by decide, by decide⟩, onSpanEnd_bounded 2 demoSpan demoExpo (by decide) (by decide)⟩

/-- The always-succeeding transport. -/
def alwaysSend : List RSpan → Bool := fun _ => true

/-- C6: assuming the transport always succeeds, `shutdown` leaves the
exporter STOPPED with an empty queue, everything that was pending has been
handed to the transport (the flattened sent batches grow by exactly the
old queue), and a subsequent background-timer cycle is a no-op. -/
theorem shutdown_drains (send : List RSpan → Bool) (e : Expo)
    (hsend : ∀ b, send b = true) :
    (shutdown send e).status = XStatus.stopped ∧
    (shutdown send e).queue = [] ∧
    (shutdown send e).sent.flatten = e.sent.flatten ++ e.queue ∧
    timerTick send (shutdown send e) = shutdown send e := by
  unfold shutdown timerTick forceFlush
  by_cases hq : e.queue.isEmpty
  · have hq' : e.queue = [] := by simpa [List.isEmpty_iff] using hq
    simp [hq, hq']
  · simp [hq, hsend e.queue]

/-- C6 (witness): shutdown drain at a concrete exporter with a pending
span and the always-succeeding transport. -/
theorem shutdown_drains_witness :
    (∀ b, alwaysSend b = true) ∧
    ((shutdown alwaysSend demoExpo).status = XStatus.stopped ∧
    (shutdown alwaysSend demoExpo).queue = [] ∧
    (shutdown alwaysSend demoExpo).sent.flatten = demoExpo.sent.flatten ++ demoExpo.queue ∧
    timerTick alwaysSend (shutdown alwaysSend demoExpo) = shutdown alwaysSend demoExpo) :=
  ⟨fun _ => rfl, shutdown_drains alwaysSend demoExpo (fun _ => rfl)⟩

/-- C7: on a span whose `end_time` is unset, the first `end()` call sets
`end_time`; a second `end()` call is a no-op that leaves the span — in
particular its `end_time` — exactly as the first call left it.  `endSpan`
is a total function, so neither call raises. -/
theorem endSpan_at_most_once (s : RSpan) (t1 t2 : Nat) (h : s.end_time = none) :
    (endSpan t1 s).end_time = some t1 ∧
    endSpan t2 (endSpan t1 s) = endSpan t1 s ∧
    (endSpan t2 (endSpan t1 s)).end_time = some t1 := by
  simp [endSpan, h]

/-- C7 (witness): double `end()` at a concrete open span. -/
theorem endSpan_at_most_once_witness :
    demoSpan.end_time = none ∧
    ((endSpan 5 demoSpan).end_time = some 5 ∧
    endSpan 9 (endSpan 5 demoSpan) = endSpan 5 demoSpan ∧
    (endSpan 9 (endSpan 5 demoSpan)).end_time = some 5) :=
  ⟨rfl, endSpan_at_most_once demoSpan 5 9 rfl⟩

end Exporter

namespace JaegerInventory

/-- C8: on the jaeger inventory service, a reserve request decrements a
stored quantity only when the product exists and its current quantity
covers the request (any other outcome is the `"failed"` response and
leaves the inventory untouched); consequently every stored quantity stays
non-negative across any sequence of reservations. -/
theorem reserve_inventory_safe (inv : JInv) (hall : jAllNonneg inv) :
    (∀ reqs : List (Int × Int), jAllNonneg (jReserveSeq inv reqs)) ∧
    (∀ pid q : Int, (reserve_inventory inv pid q).2 = JReserveResult.failed →
      (reserve_inventory inv pid q).1 = inv) ∧
    (∀ pid q : Int, ((reserve_inventory inv pid q).2 = JReserveResult.failed ↔
      ¬ ∃ p, jLookup inv pid = some p ∧ q ≤ p.quantity)) ∧
    (∀ pid q : Int, (reserve_inventory inv pid q).1 ≠ inv →
      ∃ p, jLookup inv pid = some p ∧ q ≤ p.quantity) := by
  have hfail : ∀ pid q : Int, (reserve_inventory inv pid q).2 = JReserveResult.failed →
      (reserve_inventory inv pid q).1 = inv := by
    intro pid q
    cases hl : jLookup inv pid with
    | none => simp [reserve_inventory, hl]
    | some p =>
      by_cases hq : q ≤ p.quantity
      · simp [reserve_inventory, hl, hq]
      · simp [reserve_inventory, hl, hq]
  have hiff : ∀ pid q : Int, ((reserve_inventory inv pid q).2 = JReserveResult.failed ↔
      ¬ ∃ p, jLookup inv pid = some p ∧ q ≤ p.quantity) := by
    intro pid q
    cases hl : jLookup inv pid with
    | none => simp [reserve_inventory, hl]
    | some p =>
      by_cases hq : q ≤ p.quantity
      · simp [reserve_inventory, hl, hq]
      · simp [reserve_inventory, hl, hq]
  refine ⟨fun reqs => jReserveSeq_nonneg reqs inv hall, hfail, hiff, ?_⟩
  intro pid q hne
  by_contra hno
  exact hne (hfail pid q ((hiff pid q).mpr hno))

/-- C8 (witness): the reservation safety properties at the concrete
initial inventory of the service, whose quantities are all non-negative. -/
theorem reserve_inventory_safe_witness :
    jAllNonneg initialInventory ∧
    ((∀ reqs : List (Int × Int), jAllNonneg (jReserveSeq initialInventory reqs)) ∧
    (∀ pid q : Int,
      (reserve_inventory initialInventory pid q).2 = JReserveResult.failed →
      (reserve_inventory initialInventory pid q).1 = initialInventory) ∧
    (∀ pid q : Int,
      ((reserve_inventory initialInventory pid q).2 = JReserveResult.failed ↔
      ¬ ∃ p, jLookup initialInventory pid = some p ∧ q ≤ p.quantity)) ∧
    (∀ pid q : Int, (reserve_inventory initialInventory pid q).1 ≠ initialInventory →
      ∃ p, jLookup initialInventory pid = some p ∧ q ≤ p.quantity)) :=
  ⟨by decide, reserve_inventory_safe initialInventory (by decide)⟩

/-- C10: on the jaeger inventory service, a check request never modifies
the inventory mapping; the response reports the stored quantity of the
product (0 when absent) as `available_quantity`, echoes the product id and
requested quantity, and sets `available` exactly when the stored quantity
covers the request. -/
theorem check_inventory_frame (inv : JInv) (pid q : Int) :
    (check_inventory inv pid q).1 = inv ∧
    ((check_inventory inv pid q).2.available = true ↔
      q ≤ (check_inventory inv pid q).2.available_quantity) ∧
    (∀ p, jLookup inv pid = some p →
      (check_inventory inv pid q).2.available_quantity = p.quantity) ∧
    (jLookup inv pid = none →
      (check_inventory inv pid q).2.available_quantity = 0) ∧
    (check_inventory inv pid q).2.product_id = pid ∧
    (check_inventory inv pid q).2.requested_quantity = q := by
  refine ⟨rfl, by simp [check_inventory], ?_, ?_, rfl, rfl⟩
  · intro p hp
    simp [check_inventory, hp]
  · intro hp
    simp [check_inventory, hp]

end JaegerInventory

namespace TempoOrder

/-- C9: on the tempo order service, a create-order request with a
non-positive quantity is rejected with HTTP 400 "Quantity must be
positive" before any downstream inventory call is issued and before any
order is written: the call list is empty and `orders_db` is returned
unchanged, whatever the downstream oracles would have answered. -/
theorem create_order_rejects_nonpositive (g : TGetResp) (r : TPostResp)
    (oid : String) (db : OrdersDb) (pid : String) (qty : Int) (h : qty ≤ 0) :
    create_order g r oid db pid qty =
      (Except.error ⟨400, msgQtyPositive⟩, db, []) := by
  simp [create_order, h]

def demoOrderId : String := "order-1"

def demoProductId : String := "widget"

/-- C9 (witness): the rejection at quantity 0 with a healthy downstream
oracle and an empty order store. -/
theorem create_order_rejects_nonpositive_witness :
    ((0 : Int) ≤ 0) ∧
    create_order (TGetResp.status 200 5) (TPostResp.status 200) demoOrderId []
        demoProductId 0 =
      (Except.error ⟨400, msgQtyPositive⟩, [], []) :=
  ⟨by decide,
    create_order_rejects_nonpositive (TGetResp.status 200 5) (TPostResp.status 200)
      demoOrderId [] demoProductId 0 (by decide)⟩

end TempoOrder
